import Mathlib

/-
Verification of the nuImages lazy relational table store and renderer
(`nuimages/nuimages.py`) against its natural-language specification.

The Python code is shallowly embedded: dicts become association lists
(fresh bindings are consed at the front, lookup takes the first match, so
the usual "last write wins" semantics of dict assignment is preserved);
fallible operations (assertions, KeyError, IndexError) return `Except Err`.
-/

set_option autoImplicit false

namespace NuImages

/-- The errors surfaced by the embedded operations.  Each constructor
corresponds to one failure site of the source: `configError` to the
directory-existence assertion of the constructor, `tableMissing` to the
file-existence assertion of the table loader, `unknownTable` to the
table-name assertion of `get`, `tokenNotFound` to the `KeyError` raised by a
reverse-index lookup, `keyError` to any other dict `KeyError` (keyframe map,
color map), `indexError` to a list index out of range, and the three
`precond*` constructors to the three assertions of `render_image`. -/
inductive Err where
  | configError : String → Err
  | tableMissing : String → Err
  | unknownTable : String → Err
  | tokenNotFound : String → Err
  | keyError : String → Err
  | indexError : Nat → Err
  | precondNotCamera : Err
  | precondKeyframeAnns : Err
  | precondKeyframeAttrs : Err
deriving DecidableEq, Repr

/-- First-match lookup in an association list: the embedding of reading a
Python dict built by consing fresh bindings at the front. -/
def alookup {β : Type} : List (String × β) → String → Option β
  | [], _ => none
  | p :: ps, k => if p.1 = k then some p.2 else alookup ps k

/-- A table record: its `token` field plus the remaining fields, kept as an
opaque field list (the source stores records as untyped dicts). -/
structure Rec where
  token : String
  fields : List (String × String)
deriving DecidableEq, Repr

/-- The dict built by the loop of `getind`: iterating the table in order and
writing `member['token'] -> ind`.  A write made later in the iteration
shadows an earlier one, so the bindings of the tail are placed in front of
the binding of the head. -/
def buildInd {α : Type} (tok : α → String) : List α → Nat → List (String × Nat)
  | [], _ => []
  | r :: rs, i => buildInd tok rs (i + 1) ++ [(tok r, i)]

/-- Index of the last record whose token is `t` (the denotation of the dict
built by `buildInd`); used only in proofs. -/
def lastIdxBy {α : Type} (tok : α → String) : List α → String → Option Nat
  | [], _ => none
  | r :: rs, t =>
    match lastIdxBy tok rs t with
    | some j => some (j + 1)
    | none => if tok r = t then some 0 else none

theorem alookup_append {β : Type} (xs ys : List (String × β)) (k : String) :
    alookup (xs ++ ys) k =
      match alookup xs k with
      | some v => some v
      | none => alookup ys k := by
  induction xs with
  | nil => simp [alookup]
  | cons p ps ih =>
    by_cases h : p.1 = k <;> simp [alookup, h, ih]

theorem alookup_buildInd {α : Type} (tok : α → String) (l : List α) (i : Nat) (t : String) :
    alookup (buildInd tok l i) t = (lastIdxBy tok l t).map (fun j => i + j) := by
  induction l generalizing i with
  | nil => simp [buildInd, lastIdxBy, alookup]
  | cons r rs ih =>
    rw [buildInd, alookup_append, ih]
    cases h : lastIdxBy tok rs t with
    | some j =>
      simp [lastIdxBy, h]
      omega
    | none =>
      by_cases hr : tok r = t <;> simp [lastIdxBy, h, alookup, hr]

theorem lastIdxBy_eq_none {α : Type} (tok : α → String) (l : List α) (t : String)
    (h : ∀ r ∈ l, tok r ≠ t) : lastIdxBy tok l t = none := by
  induction l with
  | nil => rfl
  | cons r rs ih =>
    have hr : tok r ≠ t := h r (List.mem_cons_self r rs)
    have hrs : lastIdxBy tok rs t = none := ih (fun x hx => h x (List.mem_cons_of_mem r hx))
    simp [lastIdxBy, hrs, hr]

theorem lastIdxBy_mem {α : Type} (tok : α → String) (l : List α) (r : α)
    (hr : r ∈ l) (hu : (l.map tok).Nodup) :
    ∃ k, lastIdxBy tok l (tok r) = some k ∧ l.get? k = some r := by
  induction l with
  | nil => cases hr
  | cons x xs ih =>
    have hu2 : (xs.map tok).Nodup := (List.nodup_cons.mp hu).2
    rcases List.mem_cons.mp hr with heq | hmem
    · subst heq
      have hnot : ∀ y ∈ xs, tok y ≠ tok r := by
        intro y hy hcontra
        exact (List.nodup_cons.mp hu).1 (hcontra ▸ List.mem_map_of_mem tok hy)
      refine ⟨0, ?_, rfl⟩
      simp [lastIdxBy, lastIdxBy_eq_none tok xs (tok r) hnot]
    · rcases ih hmem hu2 with ⟨k, hk, hget⟩
      exact ⟨k + 1, by simp [lastIdxBy, hk], by simpa using hget⟩

theorem lastIdxBy_last {α : Type} (tok : α → String) (l₁ l₂ : List α) (r : α)
    (h₂ : ∀ x ∈ l₂, tok x ≠ tok r) :
    lastIdxBy tok (l₁ ++ r :: l₂) (tok r) = some l₁.length := by
  induction l₁ with
  | nil =>
    simp [lastIdxBy, lastIdxBy_eq_none tok l₂ (tok r) h₂]
  | cons x xs ih =>
    simp [lastIdxBy, ih]

theorem get?_append_length {α : Type} (xs : List α) (y : α) (ys : List α) :
    (xs ++ y :: ys).get? xs.length = some y := by
  induction xs with
  | nil => rfl
  | cons x xs ih => simpa using ih

/-! ## Table store: reverse indices and `get` -/

/-- The ten table names of the store, in the order of the source. -/
def table_names : List String :=
  ["attribute", "calibrated_sensor", "category", "ego_pose", "log",
   "object_ann", "sample", "sample_data", "sensor", "surface_ann"]

/-- A store with all its tables resident (the state `get`/`getind` operate
on once lazy loading has materialised the table being queried).  The source
attribute named `attribute` is called `attribute_tab` here because
`attribute` is a reserved word of the proof language. -/
structure DB where
  attribute_tab : List Rec := []
  calibrated_sensor : List Rec := []
  category : List Rec := []
  ego_pose : List Rec := []
  log : List Rec := []
  object_ann : List Rec := []
  sample : List Rec := []
  sample_data : List Rec := []
  sensor : List Rec := []
  surface_ann : List Rec := []
deriving DecidableEq, Repr

/-- `getattr(self, table_name)` for a resident table. -/
def DB.table (db : DB) (name : String) : List Rec :=
  if name = "attribute" then db.attribute_tab
  else if name = "calibrated_sensor" then db.calibrated_sensor
  else if name = "category" then db.category
  else if name = "ego_pose" then db.ego_pose
  else if name = "log" then db.log
  else if name = "object_ann" then db.object_ann
  else if name = "sample" then db.sample
  else if name = "sample_data" then db.sample_data
  else if name = "sensor" then db.sensor
  else if name = "surface_ann" then db.surface_ann
  else []

/-- The reverse index `_token2ind[table]` as built by the loop of `getind`:
`for ind, member in enumerate(table): d[member['token']] = ind`. -/
def token2ind (l : List Rec) : List (String × Nat) := buildInd Rec.token l 0

/-- `getind(table_name, token)` on a resident table: look the token up in the
(lazily built) reverse index; `none` is the `KeyError` case. -/
def getind (l : List Rec) (token : String) : Option Nat :=
  alookup (token2ind l) token

/-- `get(table_name, token)`: assert the table name is recognised, then
return the record at the reverse-index position of the token. -/
def get (db : DB) (table_name token : String) : Except Err Rec :=
  if table_name ∈ table_names then
    match getind (db.table table_name) token with
    | none => .error (Err.tokenNotFound token)
    | some i =>
      match (db.table table_name).get? i with
      | some r => .ok r
      | none => .error (Err.indexError i)
  else .error (Err.unknownTable table_name)

theorem getind_eq_lastIdx (l : List Rec) (t : String) :
    getind l t = lastIdxBy Rec.token l t := by
  rw [getind, token2ind, alookup_buildInd]
  cases lastIdxBy Rec.token l t <;> simp

/-! ## Filesystem model, construction and lazy table loading -/

/-- The filesystem the store reads from: the set of existing directories and
the parsed content of each table artifact, keyed by path. -/
structure FS where
  dirs : List String
  files : List (String × List Rec)
deriving DecidableEq, Repr

/-- `osp.join` on two components. -/
def joinPath (a b : String) : String := a ++ "/" ++ b

/-- `table_root`: the versioned directory `osp.join(dataroot, version)`. -/
def table_root (dataroot version : String) : String := joinPath dataroot version

/-- `__load_table__(table_name)`: assert the artifact exists under the
versioned directory and parse it. -/
def load_table_file (fs : FS) (dataroot version table_name : String) :
    Except Err (List Rec) :=
  match alookup fs.files (joinPath (table_root dataroot version) (table_name ++ ".json")) with
  | none => .error (Err.tableMissing table_name)
  | some t => .ok t

/-- The mutable store state: configuration, the resident tables (the table
entries of `self.__dict__`), and the log of artifact reads performed so far
(the observable I/O, for the duplicate-read property). -/
structure Store where
  version : String
  dataroot : String
  lazy : Bool
  tables : List (String × List Rec)
  reads : List String
deriving DecidableEq, Repr

/-- The store state right after the directory check of the constructor,
before any table is loaded. -/
def Store.init0 (version dataroot : String) (lz : Bool) : Store :=
  ⟨version, dataroot, lz, [], []⟩

/-- `load_table(table_name)`: no-op when the table is already resident,
otherwise read the artifact and make the table resident. -/
def load_table (fs : FS) (s : Store) (table_name : String) : Except Err Store :=
  if (alookup s.tables table_name).isSome then .ok s
  else
    match load_table_file fs s.dataroot s.version table_name with
    | .error e => .error e
    | .ok t =>
      .ok { s with tables := (table_name, t) :: s.tables, reads := s.reads ++ [table_name] }

/-- The eager-loading loop of the constructor: load each named table in
order with `__load_table__`, failing fast at the first missing artifact. -/
def load_all (fs : FS) (dataroot version : String) :
    List String → Store → Except Err Store
  | [], s => .ok s
  | n :: ns, s =>
    match load_table_file fs dataroot version n with
    | .error e => .error e
    | .ok t =>
      load_all fs dataroot version ns
        { s with tables := s.tables ++ [(n, t)], reads := s.reads ++ [n] }

/-- The constructor: assert the versioned directory exists, then, unless
lazy loading was requested, eagerly load all ten tables. -/
def initStore (fs : FS) (version dataroot : String) (lz : Bool) : Except Err Store :=
  if table_root dataroot version ∈ fs.dirs then
    if lz then .ok (Store.init0 version dataroot lz)
    else load_all fs dataroot version table_names (Store.init0 version dataroot lz)
  else .error (Err.configError (table_root dataroot version))

/-- Whether an `Except` is a success. -/
def isOkE {α : Type} : Except Err α → Bool
  | .ok _ => true
  | .error _ => false

theorem alookup_snoc_isSome {β : Type} (xs : List (String × β)) (n : String) (t : β)
    (k : String) :
    (alookup (xs ++ [(n, t)]) k).isSome = ((alookup xs k).isSome || decide (k = n)) := by
  rw [alookup_append]
  cases h : alookup xs k with
  | some v => simp
  | none =>
    by_cases hk : k = n
    · subst hk
      simp [alookup]
    · simp [alookup, hk, Ne.symm hk]

theorem load_all_ok (fs : FS) (dataroot version : String) (ns : List String) (s : Store)
    (h : ∀ n ∈ ns, isOkE (load_table_file fs dataroot version n)) :
    ∃ s2, load_all fs dataroot version ns s = .ok s2 ∧
      ∀ n, ((alookup s.tables n).isSome ∨ n ∈ ns) → (alookup s2.tables n).isSome := by
  induction ns generalizing s with
  | nil => exact ⟨s, rfl, fun n hn => by simpa using hn⟩
  | cons m ms ih =>
    have hm := h m (List.mem_cons_self m ms)
    cases hf : load_table_file fs dataroot version m with
    | error e =>
      rw [hf] at hm
      exact absurd hm (by simp [isOkE])
    | ok t =>
      have hrest : ∀ n ∈ ms, isOkE (load_table_file fs dataroot version n) :=
        fun n hn => h n (List.mem_cons_of_mem m hn)
      rcases ih { s with tables := s.tables ++ [(m, t)], reads := s.reads ++ [m] } hrest with
        ⟨s2, hs2, hmem⟩
      refine ⟨s2, by simp [load_all, hf, hs2], ?_⟩
      intro n hn
      rcases hn with h1 | h2
      · exact hmem n (Or.inl (by rw [alookup_snoc_isSome]; simp [h1]))
      · rcases List.mem_cons.mp h2 with rfl | h3
        · exact hmem n (Or.inl (by rw [alookup_snoc_isSome]; simp))
        · exact hmem n (Or.inr h3)

theorem load_all_fail (fs : FS) (dataroot version : String) (ns : List String) (s : Store)
    (n : String) (hn : n ∈ ns) (h : isOkE (load_table_file fs dataroot version n) = false) :
    ∃ e, load_all fs dataroot version ns s = .error e := by
  induction ns generalizing s with
  | nil => cases hn
  | cons m ms ih =>
    cases hf : load_table_file fs dataroot version m with
    | error e => exact ⟨e, by simp [load_all, hf]⟩
    | ok t =>
      rcases List.mem_cons.mp hn with heq | hmem
      · subst heq
        rw [hf] at h
        exact absurd h (by simp [isOkE])
      · rcases ih { s with tables := s.tables ++ [(m, t)], reads := s.reads ++ [m] } hmem with
          ⟨e, he⟩
        exact ⟨e, by simp [load_all, hf, he]⟩

/-! ## SampleData records and the sample-to-keyframe map -/

/-- A `sample_data` record, with the fields the embedded operations read. -/
structure SampleData where
  token : String
  sample_token : String
  fileformat : String
  filename : String
  is_key_frame : Bool
deriving DecidableEq, Repr

/-- The two-level keyframe map: modality, then sample token, then the
keyframe sample_data token. -/
abbrev KFMap := List (String × List (String × String))

/-- The initial mapping of `sample_to_key_frame`, as written in the source:
its outer keys are the strings of the literal, `image` and `lidar`. -/
def kfMapInit : KFMap := [("image", []), ("lidar", [])]

/-- Overwrite the value bound to an existing key of a dict. -/
def dictSet {β : Type} (m : List (String × β)) (k : String) (v : β) : List (String × β) :=
  m.map (fun p => if p.1 = k then (k, v) else p)

/-- One iteration of the mapping-construction loop: keyframes are classified
by file format into `camera`/`lidar`, and the write
`mapping[sd_modality][sd_sample_token] = token` first looks `sd_modality` up
in the outer dict (`KeyError` if absent). -/
def kfStep (m : KFMap) (sd : SampleData) : Except Err KFMap :=
  if sd.is_key_frame then
    let sd_modality := if sd.fileformat = "jpg" then "camera" else "lidar"
    match alookup m sd_modality with
    | none => .error (Err.keyError sd_modality)
    | some d => .ok (dictSet m sd_modality ((sd.sample_token, sd.token) :: d))
  else .ok m

/-- The mapping-construction loop over the whole `sample_data` table. -/
def buildKFMap : List SampleData → KFMap → Except Err KFMap
  | [], m => .ok m
  | sd :: rest, m =>
    match kfStep m sd with
    | .error e => .error e
    | .ok m2 => buildKFMap rest m2

/-- `sample_to_key_frame(sample_token, modality)`: build the mapping from
the `sample_data` table, then answer the query with two dict lookups. -/
def sample_to_key_frame (sds : List SampleData) (sample_token modality : String) :
    Except Err String :=
  match buildKFMap sds kfMapInit with
  | .error e => .error e
  | .ok m =>
    match alookup m modality with
    | none => .error (Err.keyError modality)
    | some d =>
      match alookup d sample_token with
      | none => .error (Err.keyError sample_token)
      | some t => .ok t

theorem alookup_dictSet_none {β : Type} (m : List (String × β)) (k c : String) (v : β)
    (h : alookup m c = none) : alookup (dictSet m k v) c = none := by
  induction m with
  | nil => rfl
  | cons p ps ih =>
    simp only [alookup] at h
    by_cases hp : p.1 = c
    · simp [hp] at h
    · rw [if_neg hp] at h
      by_cases hk : p.1 = k
      · have hkc : ¬ k = c := fun hc => hp (hk.trans hc)
        simp [dictSet, alookup, hk, hkc]
        simpa [dictSet] using ih h
      · simp [dictSet, alookup, hk, hp]
        simpa [dictSet] using ih h

theorem alookup_dictSet_self {β : Type} (m : List (String × β)) (k : String) (v : β)
    (h : (alookup m k).isSome) : alookup (dictSet m k v) k = some v := by
  induction m with
  | nil => simp [alookup] at h
  | cons p ps ih =>
    by_cases hk : p.1 = k
    · simp [dictSet, alookup, hk]
    · rw [show alookup (p :: ps) k = alookup ps k by simp [alookup, hk]] at h
      simp [dictSet, alookup, hk]
      simpa [dictSet] using ih h

theorem buildKFMap_camera_error (sds : List SampleData) (m : KFMap)
    (hc : alookup m "camera" = none) (hl : (alookup m "lidar").isSome)
    (sd : SampleData) (hmem : sd ∈ sds) (hkf : sd.is_key_frame = true)
    (hfmt : sd.fileformat = "jpg") :
    buildKFMap sds m = .error (Err.keyError "camera") := by
  induction sds generalizing m with
  | nil => cases hmem
  | cons x xs ih =>
    by_cases hx : x.is_key_frame = true ∧ x.fileformat = "jpg"
    · obtain ⟨hk, hf⟩ := hx
      simp [buildKFMap, kfStep, hk, hf, hc]
    · have hmem2 : sd ∈ xs := by
        rcases List.mem_cons.mp hmem with heq | h2
        · exact absurd ⟨heq ▸ hkf, heq ▸ hfmt⟩ hx
        · exact h2
      cases hkx : x.is_key_frame with
      | false =>
        rw [show buildKFMap (x :: xs) m = buildKFMap xs m by simp [buildKFMap, kfStep, hkx]]
        exact ih m hc hl hmem2
      | true =>
        have hfx : ¬ x.fileformat = "jpg" := fun hf => hx ⟨hkx, hf⟩
        cases hd : alookup m "lidar" with
        | none => rw [hd] at hl; exact absurd hl (by simp)
        | some d =>
          rw [show buildKFMap (x :: xs) m =
                buildKFMap xs (dictSet m "lidar" ((x.sample_token, x.token) :: d)) by
              simp [buildKFMap, kfStep, hkx, hfx, hd]]
          exact ih _ (alookup_dictSet_none m "lidar" "camera" _ hc)
            (by rw [alookup_dictSet_self m "lidar" _ (by simp [hd])]; rfl) hmem2

/-! ## Annotation renderer

The renderer is embedded as a function from the relevant tables to the
ordered list of drawing-primitive calls it issues (the drawing primitives
themselves — bitmap fill, rectangle outline, text — are external
collaborators).  Masks appear in their decoded form, as pixel sets. -/

/-- A decoded binary mask: the set of pixels it covers. -/
abbrev MaskData := List (Nat × Nat)

/-- An RGB color from the external color map. -/
structure Color where
  r : Nat
  g : Nat
  b : Nat
deriving DecidableEq, Repr

/-- A `category` record. -/
structure Category where
  token : String
  name : String
deriving DecidableEq, Repr

/-- An `attribute` record. -/
structure Attr where
  token : String
  name : String
deriving DecidableEq, Repr

/-- An `object_ann` record. -/
structure ObjectAnn where
  token : String
  sample_data_token : String
  category_token : String
  bbox : Int × Int × Int × Int
  attribute_tokens : List String
  mask : Option MaskData
deriving DecidableEq, Repr

/-- A `surface_ann` record. -/
structure SurfaceAnn where
  token : String
  sample_data_token : String
  category_token : String
  mask : Option MaskData
deriving DecidableEq, Repr

/-- The tables and the external color map the renderer reads, in typed
form.  The `attribute` table is called `attribute_tab` here because
`attribute` is a reserved word of the proof language. -/
structure RenderDB where
  sample_data : List SampleData
  surface_ann : List SurfaceAnn
  object_ann : List ObjectAnn
  category : List Category
  attribute_tab : List Attr
  color_map : List (String × Color)
deriving DecidableEq, Repr

/-- `self.get(table, token)` on a typed table: the same reverse-index
machinery as `getind`, applied through a token projection. -/
def getBy {α : Type} (tok : α → String) (l : List α) (t : String) : Option α :=
  match alookup (buildInd tok l 0) t with
  | some i => l.get? i
  | none => none

/-- One call of the external drawing library recorded by the renderer:
`draw.bitmap` of a mask with a semi-transparent fill, `draw.rectangle` of a
box outline, or `draw.text` of a label at a position. -/
inductive RenderOp where
  | bitmapOp : MaskData → Color → RenderOp
  | rectOp : Int × Int × Int × Int → Color → RenderOp
  | textOp : Int → Int → String → RenderOp
deriving DecidableEq, Repr

/-- Modelled from the spec: `mask_decode` (from `nuimages.utils.utils`, not
among the provided sources) decodes an RLE payload into a dense binary mask;
masks are embedded here directly as their decoded pixel sets, so decoding is
the identity on them. -/
def mask_decode (m : MaskData) : MaskData := m

/-- Modelled from the spec: the annotation display-name helper (from
`nuimages.utils.utils`, not among the provided sources).  Per the spec it is
a deterministic function of the category name and the ordered attribute
list, including the attribute names only when attribute text is
requested. -/
def ann_display_name (attrs : List Attr) (category_name : String)
    (withAttrs : Bool) : String :=
  if withAttrs then (attrs.map Attr.name).foldl (fun acc n => acc ++ ", " ++ n) category_name
  else category_name

/-- The body of the surface-drawing loop, for one surface annotation:
resolve the category record and the color first; only then check the mask,
skipping the draw when it is absent. -/
def drawSurface (db : RenderDB) (ann : SurfaceAnn) : Except Err (List RenderOp) :=
  match getBy Category.token db.category ann.category_token with
  | none => .error (Err.tokenNotFound ann.category_token)
  | some cat =>
    match alookup db.color_map cat.name with
    | none => .error (Err.keyError cat.name)
    | some color =>
      match ann.mask with
      | none => .ok []
      | some m => .ok [RenderOp.bitmapOp (mask_decode m) color]

/-- Resolve the attribute records of an object annotation, in order. -/
def getAttrList (db : RenderDB) : List String → Except Err (List Attr)
  | [] => .ok []
  | t :: ts =>
    match getBy Attr.token db.attribute_tab t with
    | none => .error (Err.tokenNotFound t)
    | some a =>
      match getAttrList db ts with
      | .error e => .error e
      | .ok rest => .ok (a :: rest)

/-- The body of the object-drawing loop, for one object annotation: resolve
category, color, attributes and the display name first; only then check the
mask. A present mask yields rectangle, text, and bitmap draws, in that
order. -/
def drawObject (db : RenderDB) (withAttrs : Bool) (ann : ObjectAnn) :
    Except Err (List RenderOp) :=
  match getBy Category.token db.category ann.category_token with
  | none => .error (Err.tokenNotFound ann.category_token)
  | some cat =>
    match alookup db.color_map cat.name with
    | none => .error (Err.keyError cat.name)
    | some color =>
      match getAttrList db ann.attribute_tokens with
      | .error e => .error e
      | .ok attrs =>
        match ann.mask with
        | none => .ok []
        | some m =>
          .ok [RenderOp.rectOp ann.bbox color,
               RenderOp.textOp ann.bbox.1 ann.bbox.2.1
                 (ann_display_name attrs cat.name withAttrs),
               RenderOp.bitmapOp (mask_decode m) color]

/-- The surface-drawing loop over a list of surface annotations, collecting
draw calls in iteration order. -/
def drawSurfaces (db : RenderDB) : List SurfaceAnn → Except Err (List RenderOp)
  | [] => .ok []
  | a :: rest =>
    match drawSurface db a with
    | .error e => .error e
    | .ok ops =>
      match drawSurfaces db rest with
      | .error e => .error e
      | .ok more => .ok (ops ++ more)

/-- The object-drawing loop over a list of object annotations. -/
def drawObjects (db : RenderDB) (withAttrs : Bool) :
    List ObjectAnn → Except Err (List RenderOp)
  | [] => .ok []
  | a :: rest =>
    match drawObject db withAttrs a with
    | .error e => .error e
    | .ok ops =>
      match drawObjects db withAttrs rest with
      | .error e => .error e
      | .ok more => .ok (ops ++ more)

/-- The surface annotations of the given sample_data, restricted to the
allow-list when one is given, in source-table order. -/
def filteredSurfaces (db : RenderDB) (sd_token : String)
    (surface_tokens : Option (List String)) : List SurfaceAnn :=
  let anns := db.surface_ann.filter (fun o => o.sample_data_token == sd_token)
  match surface_tokens with
  | none => anns
  | some ts => anns.filter (fun o => ts.contains o.token)

/-- The object annotations of the given sample_data, restricted to the
allow-list when one is given, in source-table order. -/
def filteredObjects (db : RenderDB) (sd_token : String)
    (object_tokens : Option (List String)) : List ObjectAnn :=
  let anns := db.object_ann.filter (fun o => o.sample_data_token == sd_token)
  match object_tokens with
  | none => anns
  | some ts => anns.filter (fun o => ts.contains o.token)

/-- `render_image`: look the sample_data up, enforce the camera-modality and
keyframe preconditions, return the bare image (no draw calls) when
annotations are not requested, and otherwise draw all surface annotations
first and all object annotations second. -/
def render_image (db : RenderDB) (sd_token : String) (withAnns withAttrs : Bool)
    (object_tokens surface_tokens : Option (List String)) :
    Except Err (List RenderOp) :=
  match getBy SampleData.token db.sample_data sd_token with
  | none => .error (Err.tokenNotFound sd_token)
  | some sd =>
    if sd.fileformat ≠ "jpg" then .error Err.precondNotCamera
    else if sd.is_key_frame = false ∧ withAnns = true then .error Err.precondKeyframeAnns
    else if sd.is_key_frame = false ∧ withAttrs = true then .error Err.precondKeyframeAttrs
    else if withAnns = false then .ok []
    else
      match drawSurfaces db (filteredSurfaces db sd_token surface_tokens) with
      | .error e => .error e
      | .ok sOps =>
        match drawObjects db withAttrs (filteredObjects db sd_token object_tokens) with
        | .error e => .error e
        | .ok oOps => .ok (sOps ++ oOps)

/-! ## Claim theorems: table store -/

/-- C5: on a loaded table with unique tokens, `get` returns exactly the
record whose token is queried; a token absent from the table fails with the
token-not-found error; an unrecognised table name fails with the
unknown-table error; and the two failures are distinguishable. -/
theorem get_index_correctness :
    (∀ (db : DB) (name : String) (r : Rec), name ∈ table_names →
        ((db.table name).map Rec.token).Nodup → r ∈ db.table name →
        get db name r.token = Except.ok r)
  ∧ (∀ (db : DB) (name t : String), name ∈ table_names →
        (∀ r ∈ db.table name, r.token ≠ t) →
        get db name t = Except.error (Err.tokenNotFound t))
  ∧ (∀ (db : DB) (name t : String), name ∉ table_names →
        get db name t = Except.error (Err.unknownTable name))
  ∧ (∀ (n t : String), Err.unknownTable n ≠ Err.tokenNotFound t) := by
  refine ⟨?_, ?_, ?_, ?_⟩
  · intro db name r hname hu hr
    rcases lastIdxBy_mem Rec.token (db.table name) r hr hu with ⟨k, hk, hget⟩
    rw [List.get?_eq_getElem?] at hget
    simp [get, hname, getind_eq_lastIdx, hk, hget]
  · intro db name t hname habs
    simp [get, hname, getind_eq_lastIdx,
      lastIdxBy_eq_none Rec.token (db.table name) t habs]
  · intro db name t hname
    simp [get, hname]
  · intro n t h
    exact Err.noConfusion h

/-- A concrete record used by the C5 witness. -/
def recA : Rec := ⟨"tokA", [("name", "animal")]⟩

/-- A concrete record used by the C5 witness. -/
def recB : Rec := ⟨"tokB", []⟩

/-- A concrete store used by the C5 witness. -/
def dbW : DB := { category := [recA, recB] }

/-- Witness for C5 at a concrete two-record table. -/
theorem get_index_correctness_witness :
    get dbW "category" "tokA" = Except.ok recA
  ∧ get dbW "category" "zzz" = Except.error (Err.tokenNotFound "zzz")
  ∧ get dbW "nope" "tokA" = Except.error (Err.unknownTable "nope") :=
  ⟨get_index_correctness.1 dbW "category" recA (by decide) (by decide) (by decide),
   get_index_correctness.2.1 dbW "category" "zzz" (by decide) (by decide),
   get_index_correctness.2.2.1 dbW "nope" "tokA" (by decide)⟩

/-- C6: when two records of the same loaded table share a token, the reverse
index keeps only the position of the last-seen one, so lookups return the
later record; no error is raised and nothing is de-duplicated. -/
theorem get_duplicate_last_wins (db : DB) (name t : String) (l₁ l₂ l₃ : List Rec)
    (r₁ r₂ : Rec) (hname : name ∈ table_names)
    (htab : db.table name = l₁ ++ r₁ :: (l₂ ++ r₂ :: l₃))
    (h₁ : r₁.token = t) (h₂ : r₂.token = t) (h₃ : ∀ r ∈ l₃, r.token ≠ t) :
    getind (db.table name) t = some (l₁.length + 1 + l₂.length)
  ∧ get db name t = Except.ok r₂ := by
  have hassoc : l₁ ++ r₁ :: (l₂ ++ r₂ :: l₃) = (l₁ ++ r₁ :: l₂) ++ r₂ :: l₃ := by
    simp
  have h₃2 : ∀ x ∈ l₃, Rec.token x ≠ Rec.token r₂ := by
    intro x hx
    rw [h₂]
    exact h₃ x hx
  have hidx : getind (db.table name) t = some (l₁.length + 1 + l₂.length) := by
    rw [getind_eq_lastIdx, htab, hassoc, ← h₂,
      lastIdxBy_last Rec.token (l₁ ++ r₁ :: l₂) l₃ r₂ h₃2]
    congr 1
    simp
    omega
  have hget : (db.table name).get? (l₁.length + 1 + l₂.length) = some r₂ := by
    rw [htab, hassoc,
      show l₁.length + 1 + l₂.length = (l₁ ++ r₁ :: l₂).length by simp; omega]
    exact get?_append_length (l₁ ++ r₁ :: l₂) r₂ l₃
  rw [List.get?_eq_getElem?] at hget
  exact ⟨hidx, by simp [get, hname, hidx, hget]⟩

/-- A concrete record used by the C6 witness (earlier duplicate). -/
def recD1 : Rec := ⟨"dup", [("v", "first")]⟩

/-- A concrete record used by the C6 witness (later duplicate). -/
def recD2 : Rec := ⟨"dup", [("v", "second")]⟩

/-- A concrete store with a duplicated token, used by the C6 witness. -/
def dbDup : DB := { log := [recD1, recD2] }

/-- Witness for C6: with two records sharing token `dup`, lookups return the
second one. -/
theorem get_duplicate_last_wins_witness :
    getind (dbDup.table "log") "dup" = some 1
  ∧ get dbDup "log" "dup" = Except.ok recD2 :=
  get_duplicate_last_wins dbDup "log" "dup" [] [] [] recD1 recD2 (by decide)
    (by decide) rfl rfl (by decide)

/-- C7: construction fails with the config error whenever the versioned
directory is absent, for either laziness setting; eager construction makes
all ten tables resident and fails when any artifact is missing; lazy
construction returns the store with no table resident. -/
theorem init_config_and_eagerness :
    (∀ (fs : FS) (version dataroot : String) (lz : Bool),
        table_root dataroot version ∉ fs.dirs →
        initStore fs version dataroot lz =
          Except.error (Err.configError (table_root dataroot version)))
  ∧ (∀ (fs : FS) (version dataroot : String),
        table_root dataroot version ∈ fs.dirs →
        (∀ n ∈ table_names, isOkE (load_table_file fs dataroot version n)) →
        ∃ s, initStore fs version dataroot false = Except.ok s ∧
          ∀ n ∈ table_names, (alookup s.tables n).isSome)
  ∧ (∀ (fs : FS) (version dataroot n : String),
        table_root dataroot version ∈ fs.dirs → n ∈ table_names →
        isOkE (load_table_file fs dataroot version n) = false →
        ∃ e, initStore fs version dataroot false = Except.error e)
  ∧ (∀ (fs : FS) (version dataroot : String),
        table_root dataroot version ∈ fs.dirs →
        initStore fs version dataroot true =
          Except.ok (Store.init0 version dataroot true)) := by
  refine ⟨?_, ?_, ?_, ?_⟩
  · intro fs v d lz h
    simp [initStore, h]
  · intro fs v d h hall
    rcases load_all_ok fs d v table_names (Store.init0 v d false) hall with ⟨s2, hs2, hmem⟩
    refine ⟨s2, by simp [initStore, h, hs2], ?_⟩
    intro n hn
    exact hmem n (Or.inr hn)
  · intro fs v d n h hn hmiss
    rcases load_all_fail fs d v table_names (Store.init0 v d false) n hn hmiss with ⟨e, he⟩
    exact ⟨e, by simp [initStore, h, he]⟩
  · intro fs v d h
    simp [initStore, h]

/-- A filesystem with no directories at all, used by the C7 witness. -/
def fsEmpty : FS := ⟨[], []⟩

/-- A filesystem holding the versioned directory and all ten (empty) table
artifacts, used by the C7 witness. -/
def fsFull : FS :=
  ⟨["/data/v1.0"], table_names.map (fun n => ("/data/v1.0/" ++ n ++ ".json", []))⟩

/-- A filesystem holding the versioned directory but only one table
artifact, used by the C7 witness. -/
def fsPartial : FS := ⟨["/data/v1.0"], [("/data/v1.0/attribute.json", [])]⟩

/-- Witness for C7 at concrete filesystems. -/
theorem init_config_and_eagerness_witness :
    initStore fsEmpty "v1.0" "/data" true =
      Except.error (Err.configError "/data/v1.0")
  ∧ (∃ s, initStore fsFull "v1.0" "/data" false = Except.ok s ∧
        ∀ n ∈ table_names, (alookup s.tables n).isSome)
  ∧ (∃ e, initStore fsPartial "v1.0" "/data" false = Except.error e)
  ∧ initStore fsFull "v1.0" "/data" true = Except.ok (Store.init0 "v1.0" "/data" true) :=
  ⟨init_config_and_eagerness.1 fsEmpty "v1.0" "/data" true (by decide),
   init_config_and_eagerness.2.1 fsFull "v1.0" "/data" (by decide) (by decide),
   init_config_and_eagerness.2.2.1 fsPartial "v1.0" "/data" "category" (by decide)
     (by decide) (by decide),
   init_config_and_eagerness.2.2.2 fsFull "v1.0" "/data" (by decide)⟩

/-- C8: `load_table` is idempotent — a second call for the same table name
returns the state produced by the first call unchanged, tables and read log
alike, so the backing artifact is not read a second time. -/
theorem load_table_idempotent (fs : FS) (s s2 : Store) (name : String)
    (h : load_table fs s name = Except.ok s2) :
    load_table fs s2 name = Except.ok s2 := by
  by_cases hres : (alookup s.tables name).isSome
  · have hs : s2 = s := by
      rw [load_table, if_pos hres] at h
      exact (Except.ok.inj h).symm
    subst hs
    rw [load_table, if_pos hres]
  · rw [load_table, if_neg hres] at h
    cases hf : load_table_file fs s.dataroot s.version name with
    | error e =>
      rw [hf] at h
      cases h
    | ok t =>
      rw [hf] at h
      have hs : s2 = { s with tables := (name, t) :: s.tables, reads := s.reads ++ [name] } :=
        (Except.ok.inj h).symm
      subst hs
      rw [load_table, if_pos (by simp [alookup])]

/-- A filesystem with one table artifact, used by the C8 witness. -/
def fsOne : FS := ⟨["/d/v"], [("/d/v/log.json", [])]⟩

/-- The store state after loading the `log` table from `fsOne`, used by the
C8 witness. -/
def storeAfterLog : Store := ⟨"v", "/d", true, [("log", [])], ["log"]⟩

/-- Witness for C8: the first load reads the artifact, the second is a
no-op returning the identical state. -/
theorem load_table_idempotent_witness :
    load_table fsOne (Store.init0 "v" "/d" true) "log" = Except.ok storeAfterLog
  ∧ load_table fsOne storeAfterLog "log" = Except.ok storeAfterLog :=
  ⟨rfl,
   load_table_idempotent fsOne (Store.init0 "v" "/d" true) storeAfterLog "log" rfl⟩

/-! ## Claim theorems: keyframe map -/

/-- C1 (refuted): as soon as the `sample_data` table contains any keyframe
with file format `jpg`, every `sample_to_key_frame` query fails with
`KeyError 'camera'` — the mapping is initialised with outer keys `image` and
`lidar`, but the classifier files jpg keyframes under `camera`.  In
particular the call the claim describes never returns the keyframe's
token. -/
theorem sample_to_key_frame_key_error (sds : List SampleData) (sd : SampleData)
    (st md : String) (hmem : sd ∈ sds) (hkf : sd.is_key_frame = true)
    (hfmt : sd.fileformat = "jpg") :
    sample_to_key_frame sds st md = Except.error (Err.keyError "camera") := by
  have h := buildKFMap_camera_error sds kfMapInit (by decide) (by decide) sd hmem hkf hfmt
  simp [sample_to_key_frame, h]

/-- A jpg keyframe sample_data record, used by several witnesses. -/
def sdCamKF : SampleData := ⟨"sd1", "s1", "jpg", "samples/cam.jpg", true⟩

/-- Witness for C1: with a single jpg keyframe in the table, the query the
claim describes raises the camera key error instead of returning `sd1`. -/
theorem sample_to_key_frame_key_error_witness :
    sample_to_key_frame [sdCamKF] "s1" "camera" = Except.error (Err.keyError "camera") :=
  sample_to_key_frame_key_error [sdCamKF] sdCamKF "s1" "camera" (by decide) rfl rfl

/-! ## Claim theorems: renderer -/

/-- C4: with annotations requested, a non-camera (`bin`) sample_data fails
the camera precondition, and a jpg non-keyframe fails the keyframe
precondition; in both cases the result is the bare error — no drawing
operation is issued. -/
theorem render_precondition_enforcement :
    (∀ (db : RenderDB) (tok : String) (sd : SampleData) (withAttrs : Bool)
        (objT surT : Option (List String)),
        getBy SampleData.token db.sample_data tok = some sd →
        sd.fileformat = "bin" →
        render_image db tok true withAttrs objT surT = Except.error Err.precondNotCamera)
  ∧ (∀ (db : RenderDB) (tok : String) (sd : SampleData) (withAttrs : Bool)
        (objT surT : Option (List String)),
        getBy SampleData.token db.sample_data tok = some sd →
        sd.fileformat = "jpg" → sd.is_key_frame = false →
        render_image db tok true withAttrs objT surT =
          Except.error Err.precondKeyframeAnns) := by
  constructor
  · intro db tok sd wA objT surT hsd hbin
    simp [render_image, hsd, hbin]
  · intro db tok sd wA objT surT hsd hjpg hkf
    simp [render_image, hsd, hjpg, hkf]

/-- A lidar sample_data record, used by the C4 witness. -/
def sdBin : SampleData := ⟨"sdb", "s1", "bin", "sweeps/lidar.bin", true⟩

/-- A jpg non-keyframe sample_data record, used by the C4 and C9
witnesses. -/
def sdNonKF : SampleData := ⟨"sdn", "s1", "jpg", "sweeps/cam2.jpg", false⟩

/-- A store holding the two precondition-violating records, used by the C4
and C9 witnesses. -/
def dbPre : RenderDB := ⟨[sdBin, sdNonKF], [], [], [], [], []⟩

/-- Witness for C4 at the two concrete precondition-violating records. -/
theorem render_precondition_enforcement_witness :
    render_image dbPre "sdb" true false none none = Except.error Err.precondNotCamera
  ∧ render_image dbPre "sdn" true false none none = Except.error Err.precondKeyframeAnns :=
  ⟨render_precondition_enforcement.1 dbPre "sdb" sdBin false none none (by decide) rfl,
   render_precondition_enforcement.2 dbPre "sdn" sdNonKF false none none (by decide)
     rfl rfl⟩

/-- C9: on a camera non-keyframe, requesting attribute text alone — with
annotations off — is already rejected by the attribute precondition. -/
theorem render_attrs_flag_precondition (db : RenderDB) (tok : String)
    (sd : SampleData) (objT surT : Option (List String))
    (hsd : getBy SampleData.token db.sample_data tok = some sd)
    (hjpg : sd.fileformat = "jpg") (hkf : sd.is_key_frame = false) :
    render_image db tok false true objT surT = Except.error Err.precondKeyframeAttrs := by
  simp [render_image, hsd, hjpg, hkf]

/-- Witness for C9 at the concrete non-keyframe camera record. -/
theorem render_attrs_flag_precondition_witness :
    render_image dbPre "sdn" false true none none =
      Except.error Err.precondKeyframeAttrs :=
  render_attrs_flag_precondition dbPre "sdn" sdNonKF none none (by decide) rfl rfl

/-- C2: when a render with annotations succeeds, its draw calls are exactly
the surface-annotation draws (in filtered source-table order) followed by
the object-annotation draws (in filtered source-table order); hence under
any pixel semantics of the drawing primitives — in particular at pixels
where a surface mask and an object mask overlap — the final value is the
one obtained by applying the object draws after the surface draws. -/
theorem render_draw_order (db : RenderDB) (tok : String) (withAttrs : Bool)
    (objT surT : Option (List String)) (ops : List RenderOp)
    (h : render_image db tok true withAttrs objT surT = Except.ok ops) :
    ∃ sOps oOps,
      drawSurfaces db (filteredSurfaces db tok surT) = Except.ok sOps ∧
      drawObjects db withAttrs (filteredObjects db tok objT) = Except.ok oOps ∧
      ops = sOps ++ oOps ∧
      ∀ {π : Type} (eff : RenderOp → π → π) (base : π),
        ops.foldl (fun c op => eff op c) base =
          oOps.foldl (fun c op => eff op c)
            (sOps.foldl (fun c op => eff op c) base) := by
  rw [render_image] at h
  cases hsd : getBy SampleData.token db.sample_data tok with
  | none =>
    simp only [hsd] at h
    cases h
  | some sd =>
    simp only [hsd] at h
    by_cases hfmt : sd.fileformat = "jpg"
    case neg =>
      rw [if_pos (by simpa using hfmt)] at h
      cases h
    case pos =>
      rw [if_neg (by simpa using hfmt)] at h
      by_cases hkf : sd.is_key_frame = false
      · rw [if_pos ⟨hkf, trivial⟩] at h
        cases h
      · rw [if_neg (fun hc => hkf hc.1), if_neg (fun hc => hkf hc.1),
          if_neg (by simp)] at h
        cases hs : drawSurfaces db (filteredSurfaces db tok surT) with
        | error e =>
          rw [hs] at h
          cases h
        | ok sOps =>
          rw [hs] at h
          cases ho : drawObjects db withAttrs (filteredObjects db tok objT) with
          | error e =>
            rw [ho] at h
            cases h
          | ok oOps =>
            rw [ho] at h
            have hops : sOps ++ oOps = ops := Except.ok.inj h
            subst hops
            exact ⟨sOps, oOps, rfl, rfl, rfl,
              fun {π} eff base => List.foldl_append ..⟩

/-- The `person` category, used by the renderer witnesses. -/
def catPerson : Category := ⟨"cat1", "person"⟩

/-- Pure red, used by the renderer witnesses. -/
def red : Color := ⟨255, 0, 0⟩

/-- A surface annotation with a mask, used by the C2 witness. -/
def surfW : SurfaceAnn := ⟨"su1", "sd1", "cat1", some [(5, 5), (6, 5)]⟩

/-- An object annotation whose mask overlaps `surfW` at pixel (5, 5), used
by the C2 witness. -/
def objW : ObjectAnn := ⟨"ob1", "sd1", "cat1", (0, 0, 10, 10), [], some [(5, 5)]⟩

/-- The store used by the C2 witness. -/
def dbRender : RenderDB :=
  ⟨[sdCamKF], [surfW], [objW], [catPerson], [], [("person", red)]⟩

/-- Witness for C2: a successful concrete render with overlapping surface
and object masks emits the surface bitmap first and the object draws after
it. -/
theorem render_draw_order_witness :
    ∃ sOps oOps,
      drawSurfaces dbRender (filteredSurfaces dbRender "sd1" none) = Except.ok sOps ∧
      drawObjects dbRender false (filteredObjects dbRender "sd1" none) = Except.ok oOps ∧
      ([RenderOp.bitmapOp [(5, 5), (6, 5)] red,
        RenderOp.rectOp (0, 0, 10, 10) red,
        RenderOp.textOp 0 0 "person",
        RenderOp.bitmapOp [(5, 5)] red] : List RenderOp) = sOps ++ oOps ∧
      ∀ {π : Type} (eff : RenderOp → π → π) (base : π),
        ([RenderOp.bitmapOp [(5, 5), (6, 5)] red,
          RenderOp.rectOp (0, 0, 10, 10) red,
          RenderOp.textOp 0 0 "person",
          RenderOp.bitmapOp [(5, 5)] red] : List RenderOp).foldl
            (fun c op => eff op c) base =
          oOps.foldl (fun c op => eff op c)
            (sOps.foldl (fun c op => eff op c) base) :=
  render_draw_order dbRender "sd1" false none none
    [RenderOp.bitmapOp [(5, 5), (6, 5)] red,
     RenderOp.rectOp (0, 0, 10, 10) red,
     RenderOp.textOp 0 0 "person",
     RenderOp.bitmapOp [(5, 5)] red] rfl

theorem drawSurfaces_skip (db : RenderDB) (a : SurfaceAnn) (l₁ l₂ : List SurfaceAnn)
    (h : drawSurface db a = Except.ok []) :
    drawSurfaces db (l₁ ++ a :: l₂) = drawSurfaces db (l₁ ++ l₂) := by
  induction l₁ with
  | nil =>
    simp only [List.nil_append, drawSurfaces, h]
    cases drawSurfaces db l₂ <;> simp
  | cons b l ih =>
    simp only [List.cons_append, drawSurfaces, List.append_eq, ih]

theorem drawObjects_skip (db : RenderDB) (withAttrs : Bool) (a : ObjectAnn)
    (l₁ l₂ : List ObjectAnn) (h : drawObject db withAttrs a = Except.ok []) :
    drawObjects db withAttrs (l₁ ++ a :: l₂) = drawObjects db withAttrs (l₁ ++ l₂) := by
  induction l₁ with
  | nil =>
    simp only [List.nil_append, drawObjects, h]
    cases drawObjects db withAttrs l₂ <;> simp
  | cons b l ih =>
    simp only [List.cons_append, drawObjects, List.append_eq, ih]

theorem render_image_congr (db : RenderDB) (tok : String) (withAttrs : Bool)
    (objT objT2 surT surT2 : Option (List String))
    (hs : drawSurfaces db (filteredSurfaces db tok surT) =
          drawSurfaces db (filteredSurfaces db tok surT2))
    (ho : drawObjects db withAttrs (filteredObjects db tok objT) =
          drawObjects db withAttrs (filteredObjects db tok objT2)) :
    render_image db tok true withAttrs objT surT =
      render_image db tok true withAttrs objT2 surT2 := by
  rw [render_image, render_image, hs, ho]

/-- C3: a surface or object annotation whose mask is absent — and whose
category, color and (for objects) attributes resolve — contributes no draw
call at all, neither mask nor box nor label: rendering with it in the
allow-list yields exactly the draw calls of rendering with it removed from
the allow-list. -/
theorem render_mask_gating :
    (∀ (db : RenderDB) (tok : String) (withAttrs : Bool) (objT : Option (List String))
        (ts ts2 : List String) (a : SurfaceAnn) (l₁ l₂ : List SurfaceAnn)
        (cat : Category) (color : Color),
        a.mask = none →
        getBy Category.token db.category a.category_token = some cat →
        alookup db.color_map cat.name = some color →
        filteredSurfaces db tok (some ts) = l₁ ++ a :: l₂ →
        filteredSurfaces db tok (some ts2) = l₁ ++ l₂ →
        render_image db tok true withAttrs objT (some ts) =
          render_image db tok true withAttrs objT (some ts2))
  ∧ (∀ (db : RenderDB) (tok : String) (withAttrs : Bool) (surT : Option (List String))
        (ts ts2 : List String) (a : ObjectAnn) (l₁ l₂ : List ObjectAnn)
        (cat : Category) (color : Color) (attrs : List Attr),
        a.mask = none →
        getBy Category.token db.category a.category_token = some cat →
        alookup db.color_map cat.name = some color →
        getAttrList db a.attribute_tokens = Except.ok attrs →
        filteredObjects db tok (some ts) = l₁ ++ a :: l₂ →
        filteredObjects db tok (some ts2) = l₁ ++ l₂ →
        render_image db tok true withAttrs (some ts) surT =
          render_image db tok true withAttrs (some ts2) surT) := by
  constructor
  · intro db tok wA objT ts ts2 a l₁ l₂ cat color hm hcat hcol hf1 hf2
    have hskip : drawSurface db a = Except.ok [] := by
      simp [drawSurface, hcat, hcol, hm]
    apply render_image_congr
    · rw [hf1, hf2, drawSurfaces_skip db a l₁ l₂ hskip]
    · rfl
  · intro db tok wA surT ts ts2 a l₁ l₂ cat color attrs hm hcat hcol hattrs hf1 hf2
    have hskip : drawObject db wA a = Except.ok [] := by
      simp [drawObject, hcat, hcol, hattrs, hm]
    apply render_image_congr
    · rfl
    · rw [hf1, hf2, drawObjects_skip db wA a l₁ l₂ hskip]

/-- A surface annotation without a mask, used by the C3 witness. -/
def surfNoMask : SurfaceAnn := ⟨"su2", "sd1", "cat1", none⟩

/-- An object annotation without a mask, used by the C3 witness. -/
def objNoMask : ObjectAnn := ⟨"ob2", "sd1", "cat1", (1, 1, 2, 2), [], none⟩

/-- The store used by the C3 witness: one masked and one maskless
annotation of each kind, all on the keyframe `sd1`. -/
def dbGate : RenderDB :=
  ⟨[sdCamKF], [surfW, surfNoMask], [objW, objNoMask], [catPerson], [],
   [("person", red)]⟩

/-- Witness for C3: removing the maskless surface (resp. object) annotation
from the allow-list leaves the render unchanged. -/
theorem render_mask_gating_witness :
    render_image dbGate "sd1" true false none (some ["su1", "su2"]) =
      render_image dbGate "sd1" true false none (some ["su1"])
  ∧ render_image dbGate "sd1" true false (some ["ob1", "ob2"]) none =
      render_image dbGate "sd1" true false (some ["ob1"]) none :=
  ⟨render_mask_gating.1 dbGate "sd1" false none ["su1", "su2"] ["su1"] surfNoMask
     [surfW] [] catPerson red rfl (by decide) (by decide) (by decide) (by decide),
   render_mask_gating.2 dbGate "sd1" false none ["ob1", "ob2"] ["ob1"] objNoMask
     [objW] [] catPerson red [] rfl (by decide) (by decide) rfl (by decide) (by decide)⟩

theorem drawSurfaces_mem_error (db : RenderDB) (l : List SurfaceAnn) (a : SurfaceAnn)
    (ha : a ∈ l) (e : Err) (he : drawSurface db a = Except.error e) :
    ∃ e2, drawSurfaces db l = Except.error e2 := by
  induction l with
  | nil => cases ha
  | cons b rest ih =>
    cases hb : drawSurface db b with
    | error eb => exact ⟨eb, by simp [drawSurfaces, hb]⟩
    | ok ops =>
      rcases List.mem_cons.mp ha with heq | h2
      · rw [heq, hb] at he
        cases he
      · rcases ih h2 with ⟨e2, he2⟩
        exact ⟨e2, by simp [drawSurfaces, hb, he2]⟩

theorem drawObjects_mem_error (db : RenderDB) (withAttrs : Bool) (l : List ObjectAnn)
    (a : ObjectAnn) (ha : a ∈ l) (e : Err)
    (he : drawObject db withAttrs a = Except.error e) :
    ∃ e2, drawObjects db withAttrs l = Except.error e2 := by
  induction l with
  | nil => cases ha
  | cons b rest ih =>
    cases hb : drawObject db withAttrs b with
    | error eb => exact ⟨eb, by simp [drawObjects, hb]⟩
    | ok ops =>
      rcases List.mem_cons.mp ha with heq | h2
      · rw [heq, hb] at he
        cases he
      · rcases ih h2 with ⟨e2, he2⟩
        exact ⟨e2, by simp [drawObjects, hb, he2]⟩

/-- C10: per-annotation category and color resolution happens before the
absent-mask check, so a maskless annotation whose category token is missing
from the category table, or whose category name is missing from the color
map, aborts the whole render with an error — even though the annotation
would contribute nothing to the output. -/
theorem render_resolution_before_mask_check :
    (∀ (db : RenderDB) (tok : String) (sd : SampleData) (withAttrs : Bool)
        (objT surT : Option (List String)) (a : SurfaceAnn),
        getBy SampleData.token db.sample_data tok = some sd →
        sd.fileformat = "jpg" → sd.is_key_frame = true →
        a ∈ filteredSurfaces db tok surT → a.mask = none →
        (getBy Category.token db.category a.category_token = none ∨
          (∃ cat, getBy Category.token db.category a.category_token = some cat ∧
            alookup db.color_map cat.name = none)) →
        ∃ e, render_image db tok true withAttrs objT surT = Except.error e)
  ∧ (∀ (db : RenderDB) (tok : String) (sd : SampleData) (withAttrs : Bool)
        (objT surT : Option (List String)) (a : ObjectAnn),
        getBy SampleData.token db.sample_data tok = some sd →
        sd.fileformat = "jpg" → sd.is_key_frame = true →
        a ∈ filteredObjects db tok objT → a.mask = none →
        (getBy Category.token db.category a.category_token = none ∨
          (∃ cat, getBy Category.token db.category a.category_token = some cat ∧
            alookup db.color_map cat.name = none)) →
        ∃ e, render_image db tok true withAttrs objT surT = Except.error e) := by
  constructor
  · intro db tok sd wA objT surT a hsd hjpg hkf hmem _hm hres
    have hde : ∃ e0, drawSurface db a = Except.error e0 := by
      rcases hres with hnone | ⟨cat, hcat, hcol⟩
      · exact ⟨Err.tokenNotFound a.category_token, by simp [drawSurface, hnone]⟩
      · exact ⟨Err.keyError cat.name, by simp [drawSurface, hcat, hcol]⟩
    rcases hde with ⟨e0, he0⟩
    rcases drawSurfaces_mem_error db _ a hmem e0 he0 with ⟨e2, he2⟩
    refine ⟨e2, ?_⟩
    rw [render_image]
    simp only [hsd]
    rw [if_neg (by simp [hjpg]), if_neg (by simp [hkf]), if_neg (by simp [hkf]),
      if_neg (by simp), he2]
  · intro db tok sd wA objT surT a hsd hjpg hkf hmem _hm hres
    have hde : ∃ e0, drawObject db wA a = Except.error e0 := by
      rcases hres with hnone | ⟨cat, hcat, hcol⟩
      · exact ⟨Err.tokenNotFound a.category_token, by simp [drawObject, hnone]⟩
      · exact ⟨Err.keyError cat.name, by simp [drawObject, hcat, hcol]⟩
    rcases hde with ⟨e0, he0⟩
    rcases drawObjects_mem_error db wA _ a hmem e0 he0 with ⟨e2, he2⟩
    cases hs : drawSurfaces db (filteredSurfaces db tok surT) with
    | error es =>
      refine ⟨es, ?_⟩
      rw [render_image]
      simp only [hsd]
      rw [if_neg (by simp [hjpg]), if_neg (by simp [hkf]), if_neg (by simp [hkf]),
        if_neg (by simp), hs]
    | ok sOps =>
      refine ⟨e2, ?_⟩
      rw [render_image]
      simp only [hsd]
      rw [if_neg (by simp [hjpg]), if_neg (by simp [hkf]), if_neg (by simp [hkf]),
        if_neg (by simp), hs, he2]

/-- A maskless surface annotation with a dangling category token, used by
the C10 witness. -/
def surfBadCat : SurfaceAnn := ⟨"su3", "sd1", "nocat", none⟩

/-- A maskless object annotation whose category has no color-map entry,
used by the C10 witness. -/
def objBadColor : ObjectAnn := ⟨"ob3", "sd1", "cat2", (0, 0, 1, 1), [], none⟩

/-- A category whose name is absent from the (empty) color map of `dbBad`,
used by the C10 witness. -/
def catCar : Category := ⟨"cat2", "vehicle.car"⟩

/-- The store used by the C10 witness: its color map is empty and the
surface annotation's category token dangles. -/
def dbBad : RenderDB := ⟨[sdCamKF], [surfBadCat], [objBadColor], [catCar], [], []⟩

/-- Witness for C10: both maskless annotations abort their render. -/
theorem render_resolution_before_mask_check_witness :
    (∃ e, render_image dbBad "sd1" true false (some []) none = Except.error e)
  ∧ (∃ e, render_image dbBad "sd1" true false none (some []) = Except.error e) :=
  ⟨render_resolution_before_mask_check.1 dbBad "sd1" sdCamKF false (some []) none
     surfBadCat (by decide) rfl rfl (by decide) rfl (Or.inl (by decide)),
   render_resolution_before_mask_check.2 dbBad "sd1" sdCamKF false none (some [])
     objBadColor (by decide) rfl rfl (by decide) rfl
     (Or.inr ⟨catCar, by decide, rfl⟩)⟩

end NuImages
